import Mathlib

/-!
Verification development for the Indigo MCP server.

The TypeScript sources are embedded shallowly:
* JavaScript `number` arithmetic on the health/ratio paths is modelled with `ℚ`
  (all quantities involved are exact decimals well within double precision);
* `bigint` is modelled with `ℤ`;
* `async` functions that can `throw` are modelled in `Except String`;
* external SDK/library calls (`InterestOracleContract.calculateAccruedInterest`
  from `@indigo-labs/indigo-sdk`, `bech32.decode` from `bech32`,
  `parseIAssetDatumOrThrow`, `fromText`, the Lucid chain queries and the
  transaction-assembly primitives `openCdp`/`depositCdp`/`withdrawCdp`/`closeCdp`)
  are not repository code and are passed in as opaque function parameters, so the
  theorems quantify over every possible behaviour of those collaborators.
-/

namespace IndigoMcp

/-! ## src/utils.ts -/

/-- `InterestOracleDatum` as consumed by `cdpCollateralRatio` /
`cdpAccruedAssetInterest` (fields built with `BigInt(...)` in `formatCdp`). -/
structure InterestOracleDatum where
  unitaryInterest : ℤ
  interestRate : ℤ
  lastUpdated : ℤ
deriving DecidableEq

/-- `CDPFees`: the code only distinguishes the `ActiveCDPInterestTracking`
variant (whose `last_settled` / `unitary_interest_snapshot` fields it reads)
from every other variant. -/
inductive CDPFees where
  | active (last_settled : ℤ) (unitary_interest_snapshot : ℤ)
  | other
deriving DecidableEq

/-- Shape of the external SDK call
`InterestOracleContract.calculateAccruedInterest(now, snapshot, minted, lastSettled, datum)`. -/
def CalcFn : Type :=
  ℤ → ℤ → ℤ → ℤ → InterestOracleDatum → ℤ

/-- `cdpAccruedAssetInterest` (src/utils.ts lines 59-69): returns `0n` when the
interest-oracle datum argument is `undefined`, otherwise delegates to the SDK
`calculateAccruedInterest` with the current wall-clock time. -/
def cdpAccruedAssetInterest (calcFn : CalcFn) (now : ℤ)
    (unitaryInterestSnapshot mintedAmount lastSettled : ℤ)
    (interestRate : Option InterestOracleDatum) : ℤ :=
  match interestRate with
  | none => 0
  | some r => calcFn now unitaryInterestSnapshot mintedAmount lastSettled r

/-- `cdpCollateralRatio` (src/utils.ts lines 44-57):
`if (assetPrice === 0 || mintedAmount === 0n) return 0;`
`if (cdpFees.type !== ActiveCDPInterestTracking) return 0;`
then `((Number(collateral) - totalInterestLovelace) / (assetPrice * Number(mintedAmount))) * 100`
with `totalInterestLovelace = Number(totalInterestAsset) * assetPrice`. -/
def cdpCollateralRatio (calcFn : CalcFn) (now : ℤ)
    (collateral mintedAmount : ℤ) (assetPrice : ℚ)
    (cdpFees : CDPFees) (interestRate : Option InterestOracleDatum) : ℚ :=
  if assetPrice = 0 ∨ mintedAmount = 0 then 0
  else
    match cdpFees with
    | .other => 0
    | .active lastSettled snapshot =>
      let totalInterestAsset : ℤ :=
        cdpAccruedAssetInterest calcFn now snapshot mintedAmount lastSettled interestRate
      let totalInterestLovelace : ℚ := (totalInterestAsset : ℚ) * assetPrice
      ((collateral : ℚ) - totalInterestLovelace) / (assetPrice * (mintedAmount : ℚ)) * 100

/-! ## src/tools/cdp-tools.ts — `analyze_cdp_health` -/

/-- Risk tiers assigned by `analyze_cdp_health`. -/
inductive HealthStatus where
  | safe
  | warning
  | atRisk
  | liquidatable
deriving DecidableEq

/-- Inline ratio of `analyze_cdp_health` (cdp-tools.ts lines 180-183):
`mintedTokens > 0 && priceAda > 0 ? (collateralAda / (mintedTokens * priceAda)) * 100 : 0`. -/
def analyzeCollateralRatio (collateralAda mintedTokens priceAda : ℚ) : ℚ :=
  if 0 < mintedTokens ∧ 0 < priceAda then
    collateralAda / (mintedTokens * priceAda) * 100
  else 0

/-- Tier cascade of `analyze_cdp_health` (cdp-tools.ts lines 188-197), first
match winning, with `1.5` exact as `3/2`. -/
def classifyStatus (collateralRatio maintenanceRatio liquidationRatio : ℚ) : HealthStatus :=
  if maintenanceRatio * (3 / 2) ≤ collateralRatio then .safe
  else if maintenanceRatio ≤ collateralRatio then .warning
  else if liquidationRatio ≤ collateralRatio then .atRisk
  else .liquidatable

/-! ## unnamed CDP write/liquidation tool file — state locators -/

/-- `{currencySymbol, tokenName}` pair identifying an oracle NFT. -/
structure OracleNft where
  currencySymbol : String
  tokenName : String
deriving DecidableEq

/-- The `price` field of the iAsset datum: either `Delisted` or an `Oracle` wrapping
an oracle-NFT reference. -/
inductive PriceInfo where
  | delisted
  | oracle (oracleNft : OracleNft)
deriving DecidableEq

/-- Decoded `IAssetContent`: the fields the tool layer reads. -/
structure IAssetContent where
  assetName : String
  price : PriceInfo
  interestOracleNft : OracleNft
deriving DecidableEq

/-- A ledger UTxO; `inlineDatum` is the raw datum blob
(`getInlineDatumOrThrow` throws when it is absent). -/
structure Utxo where
  txHash : String
  outputIndex : Nat
  inlineDatum : Option String
deriving DecidableEq

/-- Shape of the SDK decoder `parseIAssetDatumOrThrow` under the `try`/`catch` of the scan: a failed parse is `none`. -/
def ParseIAsset : Type :=
  String → Option IAssetContent

/-- Body of the `findIAssetUtxo` scan loop: walks the candidate UTxOs in order,
skips any whose datum is absent or fails to decode, and returns the first
decoded datum whose `assetName` equals the requested hex name. -/
def findIAssetScan (parseIAsset : ParseIAsset) (assetHex : String) :
    List Utxo → Option (Utxo × IAssetContent)
  | [] => none
  | u :: rest =>
    match u.inlineDatum.bind parseIAsset with
    | some d =>
      if d.assetName = assetHex then some (u, d)
      else findIAssetScan parseIAsset assetHex rest
    | none => findIAssetScan parseIAsset assetHex rest

/-- `findIAssetUtxo`: scan the UTxOs at the CDP address holding the iAsset auth
token for the first record whose decoded `assetName` is `fromText asset`;
falling off the end of the loop throws `iAsset UTxO for ... not found`.
`fromText` (the SDK text-to-hex encoder) is an opaque parameter. -/
def findIAssetUtxo (fromText : String → String) (parseIAsset : ParseIAsset)
    (asset : String) (utxos : List Utxo) : Except String (Utxo × IAssetContent) :=
  match findIAssetScan parseIAsset (fromText asset) utxos with
  | some r => Except.ok r
  | none => Except.error ("iAsset UTxO for " ++ asset ++ " not found")

/-- `findGovUtxo`: `if (utxos.length !== 1) throw ...; return utxos[0]` over the
UTxOs holding the govNFT at the gov validator address. -/
def findGovUtxo (utxos : List Utxo) : Except String Utxo :=
  match utxos with
  | [u] => Except.ok u
  | _ => Except.error ("Expected a single governance UTxO, found " ++ toString utxos.length)

/-- `findCdpCreatorUtxo`: any CDP-creator UTxO works; the first is returned,
an empty set throws. -/
def findCdpCreatorUtxo (utxos : List Utxo) : Except String Utxo :=
  match utxos with
  | [] => Except.error "No CDP creator UTxO found"
  | u :: _ => Except.ok u

/-- `findCollectorUtxo`: first UTxO at the collector validator address. -/
def findCollectorUtxo (utxos : List Utxo) : Except String Utxo :=
  match utxos with
  | [] => Except.error "No collector UTxOs found"
  | u :: _ => Except.ok u

/-- `findTreasuryUtxo`: first UTxO at the treasury validator address. -/
def findTreasuryUtxo (utxos : List Utxo) : Except String Utxo :=
  match utxos with
  | [] => Except.error "No treasury UTxOs found"
  | u :: _ => Except.ok u

/-- The chain view one orchestration works against: the UTxO sets returned by
the Lucid address/unit queries, the `utxoByUnit` lookup, and the opaque SDK
codecs. -/
structure ChainEnv where
  iAssetUtxos : List Utxo
  cdpCreatorUtxos : List Utxo
  collectorUtxos : List Utxo
  govUtxos : List Utxo
  treasuryUtxos : List Utxo
  utxoByUnit : String → Except String Utxo
  parseIAsset : ParseIAsset
  fromText : String → String

/-- `findPriceOracleUtxo`: throws the delisted error when the `price` field of the iAsset datum is the `Delisted` variant, otherwise dereferences the oracle NFT
via `utxoByUnit`. -/
def findPriceOracleUtxo (env : ChainEnv) (iAssetDatum : IAssetContent) :
    Except String Utxo :=
  match iAssetDatum.price with
  | .delisted => Except.error "iAsset is delisted, cannot perform CDP operations"
  | .oracle nft => env.utxoByUnit (nft.currencySymbol ++ nft.tokenName)

/-- `findInterestOracleUtxo`: dereferences the `interestOracleNft` named in the
iAsset datum via `utxoByUnit`. -/
def findInterestOracleUtxo (env : ChainEnv) (iAssetDatum : IAssetContent) :
    Except String Utxo :=
  env.utxoByUnit
    (iAssetDatum.interestOracleNft.currencySymbol ++ iAssetDatum.interestOracleNft.tokenName)

/-- A CDP UTxO reference `{txHash, outputIndex}`. -/
def OutRef : Type :=
  String × Nat

/-- Each orchestration returns the assembled artifact (or the first resolution
error) together with a flag recording whether the transaction-assembly
primitive was invoked.  The two `Promise.all` batches are modelled in array
order; the delisted throw in `findPriceOracleUtxo` is synchronous, so it always
settles that batch first. -/
def OrchResult : Type :=
  Except String String × Bool

/-- `open_cdp` orchestration body (resolution pipeline around the opaque
`openCdp` assembly primitive). -/
def open_cdp (env : ChainEnv)
    (assemble : ℤ → ℤ → Utxo → Utxo → Utxo → Utxo → Utxo → Except String String)
    (asset : String) (collateralAmount mintAmount : ℤ) : OrchResult :=
  match findIAssetUtxo env.fromText env.parseIAsset asset env.iAssetUtxos with
  | .error e => (.error e, false)
  | .ok (iAssetUtxo, iAssetDatum) =>
    match findCdpCreatorUtxo env.cdpCreatorUtxos with
    | .error e => (.error e, false)
    | .ok creatorUtxo =>
      match findCollectorUtxo env.collectorUtxos with
      | .error e => (.error e, false)
      | .ok collectorUtxo =>
        match findPriceOracleUtxo env iAssetDatum with
        | .error e => (.error e, false)
        | .ok priceOracleUtxo =>
          match findInterestOracleUtxo env iAssetDatum with
          | .error e => (.error e, false)
          | .ok interestOracleUtxo =>
            (assemble collateralAmount mintAmount creatorUtxo iAssetUtxo
              priceOracleUtxo interestOracleUtxo collectorUtxo, true)

/-- `deposit_cdp` orchestration body (around the opaque `depositCdp`). -/
def deposit_cdp (env : ChainEnv)
    (assemble : ℤ → OutRef → Utxo → Utxo → Utxo → Utxo → Utxo → Utxo → Except String String)
    (asset : String) (cdpOutRef : OutRef) (amount : ℤ) : OrchResult :=
  match findIAssetUtxo env.fromText env.parseIAsset asset env.iAssetUtxos with
  | .error e => (.error e, false)
  | .ok (iAssetUtxo, iAssetDatum) =>
    match findCollectorUtxo env.collectorUtxos with
    | .error e => (.error e, false)
    | .ok collectorUtxo =>
      match findGovUtxo env.govUtxos with
      | .error e => (.error e, false)
      | .ok govUtxo =>
        match findTreasuryUtxo env.treasuryUtxos with
        | .error e => (.error e, false)
        | .ok treasuryUtxo =>
          match findPriceOracleUtxo env iAssetDatum with
          | .error e => (.error e, false)
          | .ok priceOracleUtxo =>
            match findInterestOracleUtxo env iAssetDatum with
            | .error e => (.error e, false)
            | .ok interestOracleUtxo =>
              (assemble amount cdpOutRef iAssetUtxo priceOracleUtxo
                interestOracleUtxo collectorUtxo govUtxo treasuryUtxo, true)

/-- `withdraw_cdp` orchestration body (around the opaque `withdrawCdp`);
structurally identical to `deposit_cdp` up to the assembly primitive. -/
def withdraw_cdp (env : ChainEnv)
    (assemble : ℤ → OutRef → Utxo → Utxo → Utxo → Utxo → Utxo → Utxo → Except String String)
    (asset : String) (cdpOutRef : OutRef) (amount : ℤ) : OrchResult :=
  match findIAssetUtxo env.fromText env.parseIAsset asset env.iAssetUtxos with
  | .error e => (.error e, false)
  | .ok (iAssetUtxo, iAssetDatum) =>
    match findCollectorUtxo env.collectorUtxos with
    | .error e => (.error e, false)
    | .ok collectorUtxo =>
      match findGovUtxo env.govUtxos with
      | .error e => (.error e, false)
      | .ok govUtxo =>
        match findTreasuryUtxo env.treasuryUtxos with
        | .error e => (.error e, false)
        | .ok treasuryUtxo =>
          match findPriceOracleUtxo env iAssetDatum with
          | .error e => (.error e, false)
          | .ok priceOracleUtxo =>
            match findInterestOracleUtxo env iAssetDatum with
            | .error e => (.error e, false)
            | .ok interestOracleUtxo =>
              (assemble amount cdpOutRef iAssetUtxo priceOracleUtxo
                interestOracleUtxo collectorUtxo govUtxo treasuryUtxo, true)

/-- `close_cdp` orchestration body (around the opaque `closeCdp`). -/
def close_cdp (env : ChainEnv)
    (assemble : OutRef → Utxo → Utxo → Utxo → Utxo → Utxo → Utxo → Except String String)
    (asset : String) (cdpOutRef : OutRef) : OrchResult :=
  match findIAssetUtxo env.fromText env.parseIAsset asset env.iAssetUtxos with
  | .error e => (.error e, false)
  | .ok (iAssetUtxo, iAssetDatum) =>
    match findCollectorUtxo env.collectorUtxos with
    | .error e => (.error e, false)
    | .ok collectorUtxo =>
      match findGovUtxo env.govUtxos with
      | .error e => (.error e, false)
      | .ok govUtxo =>
        match findTreasuryUtxo env.treasuryUtxos with
        | .error e => (.error e, false)
        | .ok treasuryUtxo =>
          match findPriceOracleUtxo env iAssetDatum with
          | .error e => (.error e, false)
          | .ok priceOracleUtxo =>
            match findInterestOracleUtxo env iAssetDatum with
            | .error e => (.error e, false)
            | .ok interestOracleUtxo =>
              (assemble cdpOutRef iAssetUtxo priceOracleUtxo
                interestOracleUtxo collectorUtxo govUtxo treasuryUtxo, true)

/-! ## src/utils/address.ts -/

/-- One character of the regex class `[0-9a-fA-F]`. -/
def isHexDigit (c : Char) : Bool :=
  (48 ≤ c.toNat && c.toNat ≤ 57) ||
  (97 ≤ c.toNat && c.toNat ≤ 102) ||
  (65 ≤ c.toNat && c.toNat ≤ 70)

/-- The regex test `/^[0-9a-fA-F]{56}$/.test(input)`. -/
def isHex56 (s : String) : Bool :=
  s.length == 56 && s.data.all isHexDigit

/-- Lowercase hexadecimal alphabet, as produced by `Buffer.toString(hex)`. -/
def lowerHexChars : List Char :=
  "0123456789abcdef".data

/-- One byte rendered as two lowercase hex characters. -/
def byteToHexChars (b : Nat) : List Char :=
  [lowerHexChars.getD (b / 16 % 16) '0', lowerHexChars.getD (b % 16) '0']

/-- `Buffer.from(bytes).toString(hex)`: lowercase hex encoding of a byte list. -/
def bytesToHex (bytes : List Nat) : String :=
  String.mk (bytes.map byteToHexChars).flatten

/-- Shape of the external library pipeline `bech32.decode` + `bech32.fromWords`
(throws on malformed input, modelled as `none`). -/
def Bech32Decode : Type :=
  String → Option (List Nat)

/-- JavaScript `input.startsWith(pre)` (character-list prefix test). -/
def strStartsWith (s pre : String) : Bool :=
  pre.data.isPrefixOf s.data

/-- `extractPaymentCredential` (src/utils/address.ts):
56-hex input is returned as-is; an `addr1`/`addr_test1` input is bech32-decoded
and bytes 1-29 are hex-encoded (`bytes.slice(1, 29)`); anything else throws. -/
def extractPaymentCredential (bech32decode : Bech32Decode) (input : String) :
    Except String String :=
  if isHex56 input then Except.ok input
  else if strStartsWith input "addr1" || strStartsWith input "addr_test1" then
    match bech32decode input with
    | some bytes => Except.ok (bytesToHex ((bytes.drop 1).take 28))
    | none => Except.error ("Invalid bech32 address: " ++ input)
  else Except.error ("Invalid address or payment key hash: " ++ input)

/-! ## src/tools/cdp-tools.ts and src/tools/asset-tools.ts — tool boundaries -/

/-- A loan/CDP row as served by the `/loans/` endpoint of the indexer. -/
structure Loan where
  owner : String
  asset : String
  collateral : ℚ
  minted : ℚ
  minRatio : ℚ
deriving DecidableEq

/-- What an MCP tool handler returns to the client:
a `content` text block plus an `isError` flag. -/
structure ToolResult where
  text : String
  isError : Bool
deriving DecidableEq

/-- The pagination envelope serialized by `get_all_cdps` on success. -/
structure CdpsPage where
  cdps : List Loan
  total : Nat
  limit : Nat
  offset : Nat

/-- `get_all_cdps` handler (cdp-tools.ts lines 40-75).  The awaited
`client.get(/loans/)` is an `Except`: `.error e` is a thrown/rejected fetch
whose message the `catch` block turns into an `isError` result.
`serialize` stands for `JSON.stringify`. -/
def get_all_cdps (fetchLoans : Except String (List Loan))
    (serialize : CdpsPage → String)
    (asset : Option String) (limit offset : Option Nat) : ToolResult :=
  match fetchLoans with
  | .error e => { text := "Error fetching CDPs: " ++ e, isError := true }
  | .ok data =>
    let loans := match asset with
      | some a => data.filter (fun l : Loan => l.asset == a)
      | none => data
    let total := loans.length
    let effectiveLimit := limit.getD 50
    let effectiveOffset := offset.getD 0
    let paginated := (loans.drop effectiveOffset).take effectiveLimit
    { text := serialize ⟨paginated, total, effectiveLimit, effectiveOffset⟩,
      isError := false }

/-- `get_cdps_by_owner` handler (cdp-tools.ts lines 82-102): normalize the
owner credential, fetch `/loans/`, and keep the rows whose `owner` equals the
canonical credential (strict `===`). -/
def get_cdps_by_owner (bech32decode : Bech32Decode)
    (fetchLoans : Except String (List Loan))
    (serialize : List Loan → String) (owner : String) : ToolResult :=
  match
    (do
      let pkh ← extractPaymentCredential bech32decode owner
      let data ← fetchLoans
      pure (data.filter (fun l : Loan => l.owner == pkh)) :
      Except String (List Loan))
  with
  | .error e => { text := "Error fetching CDPs by owner: " ++ e, isError := true }
  | .ok loans => { text := serialize loans, isError := false }

/-- Raw JSON payload forwarded unchanged by `get_assets`. -/
def RawJson : Type :=
  String

/-- `get_assets` handler (asset-tools.ts lines 11-29): success stringifies the
upstream payload verbatim; any thrown error becomes an `isError` result. -/
def get_assets (fetchAssets : Except String RawJson)
    (serialize : RawJson → String) : ToolResult :=
  match fetchAssets with
  | .error e => { text := "Error fetching assets: " ++ e, isError := true }
  | .ok data => { text := serialize data, isError := false }

/-- Spec-side view of the iAsset scan: every candidate whose datum decodes and
whose decoded `assetName` matches the requested hex name, in scan order. -/
def iAssetMatches (parseIAsset : ParseIAsset) (assetHex : String)
    (utxos : List Utxo) : List (Utxo × IAssetContent) :=
  utxos.filterMap (fun u =>
    match u.inlineDatum.bind parseIAsset with
    | some d => if d.assetName = assetHex then some (u, d) else none
    | none => none)

/-- A concrete delisted iAsset datum. -/
def delistedDatum : IAssetContent :=
  ⟨"69555344", PriceInfo.delisted, ⟨"ics", "itn"⟩⟩

/-- A concrete chain view whose only iAsset record is delisted. -/
def delistedEnv : ChainEnv where
  iAssetUtxos := [⟨"ia", 0, some "dat"⟩]
  cdpCreatorUtxos := [⟨"cr", 0, none⟩]
  collectorUtxos := [⟨"co", 0, none⟩]
  govUtxos := [⟨"gv", 0, none⟩]
  treasuryUtxos := [⟨"tr", 0, none⟩]
  utxoByUnit := fun _ => Except.ok ⟨"un", 0, none⟩
  parseIAsset := fun _ => some delistedDatum
  fromText := fun _ => "69555344"

/-! ## Theorems -/

/-- C5: for every behaviour of the SDK accrual function and every snapshot
state, when no interest-source record is resolvable (the interest-oracle datum
argument is absent) `cdpAccruedAssetInterest` reports zero accrued interest
instead of failing, so the read-only health query still succeeds. -/
theorem cdpAccruedAssetInterest_no_oracle_zero (calcFn : CalcFn)
    (now unitaryInterestSnapshot mintedAmount lastSettled : ℤ) :
    cdpAccruedAssetInterest calcFn now unitaryInterestSnapshot mintedAmount
      lastSettled none = 0 :=
  rfl

/-- C3: with non-degenerate inputs (price > 0, minted > 0) and active interest
tracking, `cdpCollateralRatio` returns exactly
`((collateral - accruedInterest * price) / (minted * price)) * 100`, where the
accrued interest is the value computed by `cdpAccruedAssetInterest` — the
accrued interest converted at the asset price is deducted from the collateral
before dividing by the debt value. -/
theorem cdpCollateralRatio_interest_formula (calcFn : CalcFn)
    (now collateral mintedAmount : ℤ) (assetPrice : ℚ)
    (lastSettled snapshot : ℤ) (interestRate : Option InterestOracleDatum)
    (hp : 0 < assetPrice) (hm : 0 < mintedAmount) :
    cdpCollateralRatio calcFn now collateral mintedAmount assetPrice
        (CDPFees.active lastSettled snapshot) interestRate =
      ((collateral : ℚ) -
          ((cdpAccruedAssetInterest calcFn now snapshot mintedAmount lastSettled
              interestRate : ℤ) : ℚ) * assetPrice)
        / ((mintedAmount : ℚ) * assetPrice) * 100 := by
  have h1 : ¬(assetPrice = 0 ∨ mintedAmount = 0) := by
    push_neg
    exact ⟨ne_of_gt hp, ne_of_gt hm⟩
  simp only [cdpCollateralRatio, if_neg h1]
  rw [mul_comm assetPrice ((mintedAmount : ℤ) : ℚ)]

/-- Witness for C3 at a concrete input. -/
theorem cdpCollateralRatio_interest_formula_witness :
    cdpCollateralRatio (fun _ _ _ _ _ => 7) 0 400 100 1 (CDPFees.active 0 0)
        (some ⟨1, 2, 3⟩) =
      ((400 : ℚ) -
          ((cdpAccruedAssetInterest (fun _ _ _ _ _ => 7) 0 0 100 0
              (some ⟨1, 2, 3⟩) : ℤ) : ℚ) * 1)
        / ((100 : ℚ) * 1) * 100 :=
  cdpCollateralRatio_interest_formula (fun _ _ _ _ _ => 7) 0 400 100 1 0 0
    (some ⟨1, 2, 3⟩) (by norm_num) (by norm_num)

/-- C2 counterexample: `cdpCollateralRatio` does not return 0 for a strictly
negative asset price — the guard tests `assetPrice === 0`, not `<= 0`.  With
collateral 100, minted 100, price -1, active tracking and no interest datum the
result is -100, refuting "returns 0 whenever the asset price is less than or
equal to 0". -/
theorem cdpCollateralRatio_negPrice_cex :
    cdpCollateralRatio (fun _ _ _ _ _ => 0) 0 100 100 (-1)
        (CDPFees.active 0 0) none = -100 ∧
    cdpCollateralRatio (fun _ _ _ _ _ => 0) 0 100 100 (-1)
        (CDPFees.active 0 0) none ≠ 0 := by
  constructor <;> norm_num [cdpCollateralRatio, cdpAccruedAssetInterest]

/-- C2 amended: `cdpCollateralRatio` returns 0 whenever the asset price equals
0 or the minted amount equals 0 (a strictly negative price is not guarded
there), and the inline ratio of `analyze_cdp_health` returns 0 whenever the
price or the minted amount is ≤ 0; in all these degenerate cases the guarded
branch yields the constant 0 and no quotient is evaluated. -/
theorem degenerate_ratio_guards :
    (∀ (calcFn : CalcFn) (now collateral : ℤ) (assetPrice : ℚ) (fees : CDPFees)
        (rate : Option InterestOracleDatum),
      cdpCollateralRatio calcFn now collateral 0 assetPrice fees rate = 0) ∧
    (∀ (calcFn : CalcFn) (now collateral mintedAmount : ℤ) (fees : CDPFees)
        (rate : Option InterestOracleDatum),
      cdpCollateralRatio calcFn now collateral mintedAmount 0 fees rate = 0) ∧
    (∀ collateralAda mintedTokens priceAda : ℚ,
      priceAda ≤ 0 ∨ mintedTokens ≤ 0 →
      analyzeCollateralRatio collateralAda mintedTokens priceAda = 0) := by
  refine ⟨?_, ?_, ?_⟩
  · intro calcFn now collateral assetPrice fees rate
    simp [cdpCollateralRatio]
  · intro calcFn now collateral mintedAmount fees rate
    simp [cdpCollateralRatio]
  · intro collateralAda mintedTokens priceAda h
    rw [analyzeCollateralRatio, if_neg]
    rintro ⟨hm, hpr⟩
    rcases h with h | h
    · exact absurd hpr (not_lt.mpr h)
    · exact absurd hm (not_lt.mpr h)

/-- Witness for the amended C2 at concrete inputs. -/
theorem degenerate_ratio_guards_witness :
    analyzeCollateralRatio 5 100 (-2) = 0 ∧
    cdpCollateralRatio (fun _ _ _ _ _ => 0) 0 7 0 3 CDPFees.other none = 0 :=
  ⟨degenerate_ratio_guards.2.2 5 100 (-2) (Or.inl (by norm_num)),
    degenerate_ratio_guards.1 (fun _ _ _ _ _ => 0) 0 7 3 CDPFees.other none⟩

/-- C1: with maintenanceRatio 150, liquidationRatio 110, price 1 and zero
accrued interest: collateral 300 / minted 100 gives ratio 300 and tier safe;
160/100 gives 160, warning; 120/100 gives 120, at-risk; 100/100 gives 100,
liquidatable.  Moreover the tiers are evaluated in the fixed order
safe (ratio ≥ maintenance·1.5), warning (ratio ≥ maintenance),
at-risk (ratio ≥ liquidation), else liquidatable, first match winning, so a
ratio exactly equal to a threshold lands in the higher tier. -/
theorem analyze_cdp_health_tiering :
    (analyzeCollateralRatio 300 100 1 = 300 ∧
      classifyStatus 300 150 110 = HealthStatus.safe) ∧
    (analyzeCollateralRatio 160 100 1 = 160 ∧
      classifyStatus 160 150 110 = HealthStatus.warning) ∧
    (analyzeCollateralRatio 120 100 1 = 120 ∧
      classifyStatus 120 150 110 = HealthStatus.atRisk) ∧
    (analyzeCollateralRatio 100 100 1 = 100 ∧
      classifyStatus 100 150 110 = HealthStatus.liquidatable) ∧
    (∀ r m l : ℚ,
      (m * (3 / 2) ≤ r → classifyStatus r m l = HealthStatus.safe) ∧
      (r < m * (3 / 2) → m ≤ r → classifyStatus r m l = HealthStatus.warning) ∧
      (r < m * (3 / 2) → r < m → l ≤ r →
        classifyStatus r m l = HealthStatus.atRisk) ∧
      (r < m * (3 / 2) → r < m → r < l →
        classifyStatus r m l = HealthStatus.liquidatable)) := by
  refine ⟨⟨?_, ?_⟩, ⟨?_, ?_⟩, ⟨?_, ?_⟩, ⟨?_, ?_⟩, ?_⟩
  · norm_num [analyzeCollateralRatio]
  · norm_num [classifyStatus]
  · norm_num [analyzeCollateralRatio]
  · norm_num [classifyStatus]
  · norm_num [analyzeCollateralRatio]
  · norm_num [classifyStatus]
  · norm_num [analyzeCollateralRatio]
  · norm_num [classifyStatus]
  · intro r m l
    refine ⟨?_, ?_, ?_, ?_⟩
    · intro h1
      rw [classifyStatus, if_pos h1]
    · intro h1 h2
      rw [classifyStatus, if_neg (not_le.mpr h1), if_pos h2]
    · intro h1 h2 h3
      rw [classifyStatus, if_neg (not_le.mpr h1), if_neg (not_le.mpr h2), if_pos h3]
    · intro h1 h2 h3
      rw [classifyStatus, if_neg (not_le.mpr h1), if_neg (not_le.mpr h2),
        if_neg (not_le.mpr h3)]

/-- Witness for the threshold-order part of C1 at a boundary input: a ratio exactly
at the maintenance threshold is classified warning, not at-risk. -/
theorem analyze_cdp_health_tiering_witness :
    classifyStatus 150 150 110 = HealthStatus.warning :=
  (analyze_cdp_health_tiering.2.2.2.2 150 150 110).2.1 (by norm_num) (by norm_num)

/-- The scan loop returns the head of the match list. -/
theorem findIAssetScan_eq_head (parseIAsset : ParseIAsset) (assetHex : String) :
    ∀ utxos : List Utxo,
      findIAssetScan parseIAsset assetHex utxos =
        (iAssetMatches parseIAsset assetHex utxos).head?
  | [] => rfl
  | u :: rest => by
    rw [findIAssetScan, iAssetMatches, List.filterMap_cons]
    cases h : u.inlineDatum.bind parseIAsset with
    | none =>
      dsimp only
      rw [findIAssetScan_eq_head parseIAsset assetHex rest]
      rfl
    | some d =>
      dsimp only
      by_cases hd : d.assetName = assetHex
      · rw [if_pos hd, if_pos hd]
        rfl
      · rw [if_neg hd, if_neg hd]
        dsimp only
        rw [findIAssetScan_eq_head parseIAsset assetHex rest]
        rfl

/-- C4 counterexample: with two candidate UTxOs that both decode to a datum
matching the requested symbol, `findIAssetUtxo` silently returns the first
match instead of surfacing an ambiguity error — the match list has length 2
yet the locator answers `ok` with the first record. -/
theorem findIAssetUtxo_ambiguity_cex :
    findIAssetUtxo (fun _ => "69555344")
        (fun _ => some ⟨"69555344", PriceInfo.oracle ⟨"cs", "tn"⟩, ⟨"ics", "itn"⟩⟩)
        "iUSD" [⟨"tx1", 0, some "d1"⟩, ⟨"tx2", 0, some "d2"⟩] =
      Except.ok (⟨"tx1", 0, some "d1"⟩,
        ⟨"69555344", PriceInfo.oracle ⟨"cs", "tn"⟩, ⟨"ics", "itn"⟩⟩) ∧
    (iAssetMatches
        (fun _ => some ⟨"69555344", PriceInfo.oracle ⟨"cs", "tn"⟩, ⟨"ics", "itn"⟩⟩)
        "69555344" [⟨"tx1", 0, some "d1"⟩, ⟨"tx2", 0, some "d2"⟩]).length = 2 :=
  ⟨rfl, rfl⟩

/-- C4 amended: the locator scans all candidates at the CDP address, skipping
candidates whose structured data fails to decode; zero decoded records matching
the asset symbol yields a not-found error, and when one or more records match,
the first match in scan order is returned — multiple matches are not detected
as an ambiguity. -/
theorem findIAssetUtxo_first_match (fromText : String → String)
    (parseIAsset : ParseIAsset) (asset : String) (utxos : List Utxo) :
    findIAssetUtxo fromText parseIAsset asset utxos =
      match iAssetMatches parseIAsset (fromText asset) utxos with
      | [] => Except.error ("iAsset UTxO for " ++ asset ++ " not found")
      | r :: _ => Except.ok r := by
  rw [findIAssetUtxo, findIAssetScan_eq_head]
  cases iAssetMatches parseIAsset (fromText asset) utxos with
  | nil => rfl
  | cons r t => rfl

/-- C8: locating the governance singleton requires exactly one UTxO holding the
governance NFT at the governance validator address — a singleton set resolves
to its element, while zero matches and two or more matches are both reported as
errors, never resolved by picking an arbitrary record. -/
theorem findGovUtxo_singleton :
    (∀ u : Utxo, findGovUtxo [u] = Except.ok u) ∧
    (∀ utxos : List Utxo, utxos.length ≠ 1 →
      findGovUtxo utxos =
        Except.error
          ("Expected a single governance UTxO, found " ++ toString utxos.length)) := by
  constructor
  · intro u
    rfl
  · intro utxos h
    match utxos with
    | [] => rfl
    | [u] => exact absurd rfl h
    | u :: v :: rest => rfl

/-- Witness for C8 at concrete inputs: two governance UTxOs are rejected. -/
theorem findGovUtxo_singleton_witness :
    findGovUtxo [⟨"t1", 0, none⟩, ⟨"t2", 1, none⟩] =
      Except.error ("Expected a single governance UTxO, found " ++
        toString ([⟨"t1", 0, none⟩, ⟨"t2", 1, none⟩] : List Utxo).length) :=
  findGovUtxo_singleton.2 [⟨"t1", 0, none⟩, ⟨"t2", 1, none⟩] (by decide)

/-- C6: when the iAsset record for the requested asset resolves to a datum
whose `price` field is the `Delisted` variant, and the other independent lookups of the operation succeed, each of the four mutating CDP orchestrations
(open/deposit/withdraw/close) returns the delisted error; the `false` flag
states that the transaction-assembly primitive is never invoked (the result is
the same for every possible `assemble`), so no partial artifact is produced. -/
theorem delisted_blocks_assembly (env : ChainEnv) (asset : String)
    (iAssetUtxo : Utxo) (iAssetDatum : IAssetContent)
    (hfind : findIAssetUtxo env.fromText env.parseIAsset asset env.iAssetUtxos =
      Except.ok (iAssetUtxo, iAssetDatum))
    (hdel : iAssetDatum.price = PriceInfo.delisted)
    (hcreator : env.cdpCreatorUtxos ≠ [])
    (hcollector : env.collectorUtxos ≠ [])
    (hgov : ∃ g, env.govUtxos = [g])
    (htreasury : env.treasuryUtxos ≠ []) :
    (∀ assemble collateralAmount mintAmount,
      open_cdp env assemble asset collateralAmount mintAmount =
        (Except.error "iAsset is delisted, cannot perform CDP operations", false)) ∧
    (∀ assemble cdpOutRef amount,
      deposit_cdp env assemble asset cdpOutRef amount =
        (Except.error "iAsset is delisted, cannot perform CDP operations", false)) ∧
    (∀ assemble cdpOutRef amount,
      withdraw_cdp env assemble asset cdpOutRef amount =
        (Except.error "iAsset is delisted, cannot perform CDP operations", false)) ∧
    (∀ assemble cdpOutRef,
      close_cdp env assemble asset cdpOutRef =
        (Except.error "iAsset is delisted, cannot perform CDP operations", false)) := by
  obtain ⟨c1, r1, h1⟩ := List.exists_cons_of_ne_nil hcreator
  obtain ⟨c2, r2, h2⟩ := List.exists_cons_of_ne_nil hcollector
  obtain ⟨g, hg⟩ := hgov
  obtain ⟨t1, rt, ht⟩ := List.exists_cons_of_ne_nil htreasury
  refine ⟨?_, ?_, ?_, ?_⟩
  · intro assemble collateralAmount mintAmount
    simp only [open_cdp, hfind, h1, h2, findCdpCreatorUtxo, findCollectorUtxo,
      findPriceOracleUtxo, hdel]
  · intro assemble cdpOutRef amount
    simp only [deposit_cdp, hfind, h2, hg, ht, findCollectorUtxo, findGovUtxo,
      findTreasuryUtxo, findPriceOracleUtxo, hdel]
  · intro assemble cdpOutRef amount
    simp only [withdraw_cdp, hfind, h2, hg, ht, findCollectorUtxo, findGovUtxo,
      findTreasuryUtxo, findPriceOracleUtxo, hdel]
  · intro assemble cdpOutRef
    simp only [close_cdp, hfind, h2, hg, ht, findCollectorUtxo, findGovUtxo,
      findTreasuryUtxo, findPriceOracleUtxo, hdel]

/-- Witness for C6: all four orchestrations, run against the concrete delisted
environment with a concrete assembly primitive, fail with the delisted error
without invoking assembly. -/
theorem delisted_blocks_assembly_witness :
    open_cdp delistedEnv (fun _ _ _ _ _ _ _ => Except.ok "cbor") "iUSD" 5 3 =
      (Except.error "iAsset is delisted, cannot perform CDP operations", false) ∧
    deposit_cdp delistedEnv (fun _ _ _ _ _ _ _ _ => Except.ok "cbor") "iUSD" ("tx", 0) 9 =
      (Except.error "iAsset is delisted, cannot perform CDP operations", false) ∧
    withdraw_cdp delistedEnv (fun _ _ _ _ _ _ _ _ => Except.ok "cbor") "iUSD" ("tx", 0) 9 =
      (Except.error "iAsset is delisted, cannot perform CDP operations", false) ∧
    close_cdp delistedEnv (fun _ _ _ _ _ _ _ => Except.ok "cbor") "iUSD" ("tx", 0) =
      (Except.error "iAsset is delisted, cannot perform CDP operations", false) :=
  have h := delisted_blocks_assembly delistedEnv "iUSD" ⟨"ia", 0, some "dat"⟩
    delistedDatum rfl rfl (by decide) (by decide) ⟨⟨"gv", 0, none⟩, rfl⟩ (by decide)
  ⟨h.1 _ 5 3, h.2.1 _ ("tx", 0) 9, h.2.2.1 _ ("tx", 0) 9, h.2.2.2 _ ("tx", 0)⟩

/-- Every index below 16 selects an element of the lowercase alphabet. -/
theorem lowerHexChars_getD_mem :
    ∀ n : Nat, n < 16 → lowerHexChars.getD n '0' ∈ lowerHexChars := by
  decide

/-- Every character emitted by `bytesToHex` belongs to the lowercase
hexadecimal alphabet. -/
theorem bytesToHex_lowercase (bytes : List Nat) :
    ∀ c ∈ (bytesToHex bytes).data, c ∈ lowerHexChars := by
  intro c hc
  rw [bytesToHex] at hc
  simp only [String.data] at hc
  rcases List.mem_flatten.mp hc with ⟨l, hl, hcl⟩
  rcases List.mem_map.mp hl with ⟨b, _, rfl⟩
  simp only [byteToHexChars, List.mem_cons, List.not_mem_nil, or_false] at hcl
  rcases hcl with h | h
  · rw [h]
    exact lowerHexChars_getD_mem (b / 16 % 16) (Nat.mod_lt _ (by norm_num))
  · rw [h]
    exact lowerHexChars_getD_mem (b % 16) (Nat.mod_lt _ (by norm_num))

/-- C9: at the public tool boundary of the two cited representative tools,
every upstream failure (a rejected `client.get`, surfaced as the `.error` case
of the awaited fetch) is caught and turned into a structured result with
`isError := true` and the error message, while successful fetches produce
`isError := false`; the handlers are total functions, so no exception can
propagate past the boundary. -/
theorem tool_boundary_isError :
    (∀ (e : String) (serialize : CdpsPage → String) (asset : Option String)
        (limit offset : Option Nat),
      get_all_cdps (Except.error e) serialize asset limit offset =
        { text := "Error fetching CDPs: " ++ e, isError := true }) ∧
    (∀ (data : List Loan) (serialize : CdpsPage → String) (asset : Option String)
        (limit offset : Option Nat),
      (get_all_cdps (Except.ok data) serialize asset limit offset).isError = false) ∧
    (∀ (e : String) (serialize : RawJson → String),
      get_assets (Except.error e) serialize =
        { text := "Error fetching assets: " ++ e, isError := true }) ∧
    (∀ (data : RawJson) (serialize : RawJson → String),
      (get_assets (Except.ok data) serialize).isError = false) := by
  refine ⟨?_, ?_, ?_, ?_⟩ <;> intros <;> rfl

/-- C10: a 56-hex input (uppercase letters included) is returned verbatim with
no case normalization; the bech32 branch always returns lowercase hex; hence an
uppercase-hex credential never normalizes to the same string as any bech32
address, and the owner filter compares the canonical strings by exact
equality. -/
theorem extractPaymentCredential_case_sensitivity :
    (∀ (d : Bech32Decode) (s : String), isHex56 s = true →
      extractPaymentCredential d s = Except.ok s) ∧
    (∀ (d : Bech32Decode) (input : String) (bytes : List Nat),
      isHex56 input = false →
      (strStartsWith input "addr1" || strStartsWith input "addr_test1") = true →
      d input = some bytes →
      extractPaymentCredential d input =
        Except.ok (bytesToHex ((bytes.drop 1).take 28)) ∧
      ∀ c ∈ (bytesToHex ((bytes.drop 1).take 28)).data, c ∈ lowerHexChars) ∧
    (∀ (d : Bech32Decode) (s addr : String) (bytes : List Nat) (c : Char),
      isHex56 s = true → c ∈ s.data →
      c ∈ (['A', 'B', 'C', 'D', 'E', 'F'] : List Char) →
      isHex56 addr = false →
      (strStartsWith addr "addr1" || strStartsWith addr "addr_test1") = true →
      d addr = some bytes →
      extractPaymentCredential d s ≠ extractPaymentCredential d addr) ∧
    (∀ (d : Bech32Decode) (loans : List Loan) (serialize : List Loan → String)
        (owner pkh : String),
      extractPaymentCredential d owner = Except.ok pkh →
      get_cdps_by_owner d (Except.ok loans) serialize owner =
        { text := serialize (loans.filter (fun l => l.owner == pkh)),
          isError := false }) := by
  have hhex : ∀ (d : Bech32Decode) (s : String), isHex56 s = true →
      extractPaymentCredential d s = Except.ok s := by
    intro d s hs
    simp [extractPaymentCredential, hs]
  have hbech : ∀ (d : Bech32Decode) (input : String) (bytes : List Nat),
      isHex56 input = false →
      (strStartsWith input "addr1" || strStartsWith input "addr_test1") = true →
      d input = some bytes →
      extractPaymentCredential d input =
        Except.ok (bytesToHex ((bytes.drop 1).take 28)) := by
    intro d input bytes h1 h2 h3
    simp [extractPaymentCredential, h1, h2, h3]
  refine ⟨hhex, ?_, ?_, ?_⟩
  · intro d input bytes h1 h2 h3
    exact ⟨hbech d input bytes h1 h2 h3, bytesToHex_lowercase _⟩
  · intro d s addr bytes c hs hcs hcu haddr hpre hdec heq
    rw [hhex d s hs, hbech d addr bytes haddr hpre hdec] at heq
    have hsval : s = bytesToHex ((bytes.drop 1).take 28) :=
      Except.ok.inj heq
    have hclow : c ∈ lowerHexChars := by
      apply bytesToHex_lowercase
      rw [← hsval]
      exact hcs
    fin_cases hcu <;> simp_all [lowerHexChars]
  · intro d loans serialize owner pkh h
    simp only [get_cdps_by_owner, h]
    rfl

/-- Witness for C10 at a concrete input: an uppercase 56-hex credential and a
bech32 address normalize to different canonical strings. -/
theorem extractPaymentCredential_case_sensitivity_witness :
    extractPaymentCredential (fun _ => some (List.replicate 29 170))
        "ABCDEF0123456789ABCDEF0123456789ABCDEF0123456789ABCDEF01" ≠
      extractPaymentCredential (fun _ => some (List.replicate 29 170)) "addr1q" :=
  extractPaymentCredential_case_sensitivity.2.2.1
    (fun _ => some (List.replicate 29 170))
    "ABCDEF0123456789ABCDEF0123456789ABCDEF0123456789ABCDEF01" "addr1q"
    (List.replicate 29 170) 'A' (by decide) (by decide) (by decide) (by decide)
    (by decide) rfl

/-- C7 counterexample: the credential whose 28 bytes are all `0xAA` can be
written as the raw 56-hex string of 56 `A`s; a bech32 address embedding exactly
those bytes normalizes to 56 `a`s (lowercase hex), while the raw uppercase form
is returned verbatim — the two canonical values differ, refuting "identical for
all valid 56-hex credentials". -/
theorem extractPaymentCredential_case_cex :
    extractPaymentCredential (fun _ => some (0 :: List.replicate 28 170))
        "AAAAAAAAAAAAAAAAAAAAAAAAAAAAAAAAAAAAAAAAAAAAAAAAAAAAAAAA" =
      Except.ok "AAAAAAAAAAAAAAAAAAAAAAAAAAAAAAAAAAAAAAAAAAAAAAAAAAAAAAAA" ∧
    extractPaymentCredential (fun _ => some (0 :: List.replicate 28 170))
        "addr1q" =
      Except.ok "aaaaaaaaaaaaaaaaaaaaaaaaaaaaaaaaaaaaaaaaaaaaaaaaaaaaaaaa" ∧
    ("AAAAAAAAAAAAAAAAAAAAAAAAAAAAAAAAAAAAAAAAAAAAAAAAAAAAAAAA" : String) ≠
      "aaaaaaaaaaaaaaaaaaaaaaaaaaaaaaaaaaaaaaaaaaaaaaaaaaaaaaaa" := by
  refine ⟨rfl, rfl, by decide⟩

/-- C7 amended: whenever the bech32 decoding of an address yields exactly the
(necessarily lowercase) 56-hex credential `s`, normalizing the raw hex string
and normalizing the address produce the identical canonical value `s`, and this
common canonical value is the one the owner-scoped filter operates on:
`get_cdps_by_owner` gives the same result for both surface forms. -/
theorem extractPaymentCredential_lowercase_agreement (d : Bech32Decode)
    (s addr : String) (bytes : List Nat)
    (hs : isHex56 s = true)
    (haddr : isHex56 addr = false)
    (hpre : (strStartsWith addr "addr1" || strStartsWith addr "addr_test1") = true)
    (hdec : d addr = some bytes)
    (hembed : bytesToHex ((bytes.drop 1).take 28) = s) :
    extractPaymentCredential d s = Except.ok s ∧
    extractPaymentCredential d addr = Except.ok s ∧
    ∀ (loans : List Loan) (serialize : List Loan → String),
      get_cdps_by_owner d (Except.ok loans) serialize s =
        get_cdps_by_owner d (Except.ok loans) serialize addr := by
  have h1 : extractPaymentCredential d s = Except.ok s := by
    simp [extractPaymentCredential, hs]
  have h2 : extractPaymentCredential d addr = Except.ok s := by
    simp [extractPaymentCredential, haddr, hpre, hdec]
    simpa using hembed
  refine ⟨h1, h2, ?_⟩
  intro loans serialize
  simp [get_cdps_by_owner, h1, h2]

/-- Witness for the amended C7 at a concrete input: the all-`aa` credential in
raw-hex form and in bech32-embedded form normalize to the same canonical
value. -/
theorem extractPaymentCredential_lowercase_agreement_witness :
    extractPaymentCredential (fun _ => some (0 :: List.replicate 28 170))
        "aaaaaaaaaaaaaaaaaaaaaaaaaaaaaaaaaaaaaaaaaaaaaaaaaaaaaaaa" =
      Except.ok "aaaaaaaaaaaaaaaaaaaaaaaaaaaaaaaaaaaaaaaaaaaaaaaaaaaaaaaa" ∧
    extractPaymentCredential (fun _ => some (0 :: List.replicate 28 170))
        "addr1q" =
      Except.ok "aaaaaaaaaaaaaaaaaaaaaaaaaaaaaaaaaaaaaaaaaaaaaaaaaaaaaaaa" :=
  have h := extractPaymentCredential_lowercase_agreement
    (fun _ => some (0 :: List.replicate 28 170))
    "aaaaaaaaaaaaaaaaaaaaaaaaaaaaaaaaaaaaaaaaaaaaaaaaaaaaaaaa" "addr1q"
    (0 :: List.replicate 28 170) (by decide) (by decide) (by decide) rfl
    (by decide)
  ⟨h.1, h.2.1⟩

end IndigoMcp
